import Mathlib

/-!
Shallow embedding of `starlette/config.py`: the `Environ` environment-access
guard and the `Config` resolver (precedence, cast dispatch, file parsing).

Python dictionaries over string keys are modelled as association lists
(`List (String × String)`) with insertion-order-preserving overwrite, Python
sets of strings as `List String` with membership-tested append, Python dynamic
values as the inductive `Value`, and Python exceptions as the inductive `Exc`
carried in `Except`.  The in-place mutation of an `Environ` object is modelled
by explicit state passing: each operation returns its result together with the
successor state.
-/

set_option autoImplicit false

namespace Starlette

instance {ε α : Type} [DecidableEq ε] [DecidableEq α] : DecidableEq (Except ε α) := fun a b =>
  match a, b with
  | Except.ok x, Except.ok y =>
    if h : x = y then isTrue (by rw [h]) else isFalse (by intro hh; cases hh; exact h rfl)
  | Except.ok _, Except.error _ => isFalse (by intro hh; cases hh)
  | Except.error _, Except.ok _ => isFalse (by intro hh; cases hh)
  | Except.error x, Except.error y =>
    if h : x = y then isTrue (by rw [h]) else isFalse (by intro hh; cases hh; exact h rfl)

/-- Lookup in a Python dict modelled as an association list:
`d[k]` returns the value of the binding of `k`, if any. -/
def dictGet? : List (String × String) → String → Option String
  | [], _ => none
  | p :: rest, k => if p.1 = k then some p.2 else dictGet? rest k

/-- `d[k] = v` on a Python dict: overwrite the existing binding of `k`
in place (keeping its position) or append a fresh binding at the end. -/
def dictInsert : List (String × String) → String → String → List (String × String)
  | [], k, v => [(k, v)]
  | p :: rest, k, v => if p.1 = k then (k, v) :: rest else p :: dictInsert rest k v

/-- `del d[k]` on a Python dict: remove the binding of `k`; `none` models the
`KeyError` raised when `k` is absent. -/
def dictDel? : List (String × String) → String → Option (List (String × String))
  | [], _ => none
  | p :: rest, k =>
    if p.1 = k then some rest else (dictDel? rest k).map (fun m => p :: m)

/-- `s.add k` on a Python set of strings modelled as a duplicate-free list. -/
def readAdd (r : List String) (k : String) : List String :=
  if k ∈ r then r else r ++ [k]

/-- A Python dynamic value, restricted to the shapes the config module
handles: `None`, `str`, `bool` and `int`. -/
inductive Value where
  | vnone
  | vstr (s : String)
  | vbool (b : Bool)
  | vint (n : Int)
deriving DecidableEq

/-- The exceptions raised in `starlette/config.py`, with their message
payloads kept structurally.  `keyError` is the mapping lookup failure;
`environSet` and `environDel` are the two `EnvironError` messages
("Attempting to set/delete environ[key], but the value has already been
read."); `configMissing` is the `KeyError` "Config key is missing, and has no
default."; `notValidBool` is the `ValueError` "Config key has value v. Not a
valid bool." (v is the lowercased string); `notValid` is the `ValueError`
"Config key has value v. Not a valid castname."; bare `typeError` and
`valueError` model `TypeError`/`ValueError` instances raised by a user cast
callable; `other` models any other exception class. -/
inductive Exc where
  | keyError (key : String)
  | environSet (key : String)
  | environDel (key : String)
  | configMissing (key : String)
  | notValidBool (key : String) (value : String)
  | notValid (key : String) (value : Value) (castName : String)
  | typeError
  | valueError
  | other (name : String)
deriving DecidableEq

/-- The `cast` argument of `Config.get`: `noCast` is Python `None`,
`boolCast` is the builtin `bool` type (detected by `cast is bool`), and
`custom name f` is any other callable, with `name` its `__name__` and `f`
its behaviour (returning `Except` to model raised exceptions). -/
inductive Cast where
  | noCast
  | boolCast
  | custom (name : String) (f : Value → Except Exc Value)

/-- Python `str.lower()` on one character, for the ASCII range the config
module works with. -/
def pyLowerChar (c : Char) : Char :=
  if 'A' ≤ c ∧ c ≤ 'Z' then Char.ofNat (c.toNat + 32) else c

/-- Python `value.lower()` (ASCII range). -/
def pyLower (s : String) : String :=
  String.mk (s.toList.map pyLowerChar)

/-- Python truthiness `bool(v)` for the non-`None`, non-`str` values that can
reach the generic branch of `_perform_cast` when the cast is `bool`
(`None` and `str` are intercepted earlier; `bool()` raises on neither `int`
nor `bool`). -/
def pyBool : Value → Bool
  | Value.vnone => false
  | Value.vstr s => s ≠ ""
  | Value.vbool b => b
  | Value.vint n => n ≠ 0

/-- `Config._perform_cast(key, value, cast)`:
`if cast is None or value is None: return value`;
`elif cast is bool and isinstance(value, str)`: lowercase and look up in
`{"true": True, "1": True, "false": False, "0": False}`, raising
`ValueError` ("Not a valid bool", with the lowercased string) when absent;
otherwise `return cast(value)`, catching `(TypeError, ValueError)` and
re-raising `ValueError` ("Not a valid castname") — any other exception
propagates. -/
def performCast (key : String) (value : Value) (cast : Cast) : Except Exc Value :=
  match cast, value with
  | Cast.noCast, v => Except.ok v
  | _, Value.vnone => Except.ok Value.vnone
  | Cast.boolCast, Value.vstr s =>
    let t := pyLower s
    if t = "true" ∨ t = "1" then Except.ok (Value.vbool true)
    else if t = "false" ∨ t = "0" then Except.ok (Value.vbool false)
    else Except.error (Exc.notValidBool key t)
  | Cast.boolCast, v => Except.ok (Value.vbool (pyBool v))
  | Cast.custom name f, v =>
    match f v with
    | Except.ok r => Except.ok r
    | Except.error Exc.typeError => Except.error (Exc.notValid key v name)
    | Except.error Exc.valueError => Except.error (Exc.notValid key v name)
    | Except.error e => Except.error e

/-- The state of a `Config` object after construction: the environment-like
mapping it was given (a `typing.Mapping`, read-only here), the key
`env_prefix`, and the parsed `file_values`. -/
structure Config where
  environ : List (String × String)
  env_prefix : String
  file_values : List (String × String)

/-- The effective key: `self.env_prefix + key`, the first line of
`Config.get`. -/
def effectiveKey (c : Config) (key : String) : String :=
  Config.env_prefix c ++ key

/-- `Config.get(key, cast, default)`, with the undefined sentinel modelled as
an `Option`: `none` is "no default supplied" (`default is undefined`), and
`some d` a supplied default `d` (which may itself be `Value.vnone`, Python
`None`).  `if key in self.environ: return self._perform_cast(key,
self.environ[key], cast)`, then the same on `self.file_values`, then the
default, else `raise KeyError("Config key is missing, and has no
default.")`. -/
def Config.get (c : Config) (key : String) (cast : Cast) (default : Option Value) :
    Except Exc Value :=
  let key := effectiveKey c key
  match dictGet? c.environ key with
  | some value => performCast key (Value.vstr value) cast
  | none =>
    match dictGet? c.file_values key with
    | some value => performCast key (Value.vstr value) cast
    | none =>
      match default with
      | some d => performCast key d cast
      | none => Except.error (Exc.configMissing key)

/-- The raw value `Config.get` selects before casting: the environment value
if the effective key is there, else the file value, else the supplied
default (`none` when nothing is available).  Mirrors the precedence chain of
`Config.get` for use in specification statements. -/
def Config.rawValue (c : Config) (key : String) (default : Option Value) : Option Value :=
  match dictGet? c.environ (effectiveKey c key) with
  | some v => some (Value.vstr v)
  | none =>
    match dictGet? c.file_values (effectiveKey c key) with
    | some v => some (Value.vstr v)
    | none => default

/-- Python whitespace for `str.strip()` (ASCII range): space, tab, newline,
carriage return, vertical tab, form feed. -/
def isPyWS (c : Char) : Bool :=
  c = ' ' ∨ c = '\t' ∨ c = '\n' ∨ c = '\r' ∨ c = Char.ofNat 11 ∨ c = Char.ofNat 12

/-- A double- or single-quote character, the strip set of `strip("\"'")`. -/
def isQuote (c : Char) : Bool :=
  c = Char.ofNat 34 ∨ c = Char.ofNat 39

/-- Python `str.strip(chars)`: remove ALL leading and trailing characters
satisfying the predicate (not one layer, and with no matching requirement). -/
def pyStripBy (p : Char → Bool) (l : List Char) : List Char :=
  ((l.dropWhile p).reverse.dropWhile p).reverse

/-- Python `line.strip()`. -/
def pyStrip (s : String) : String :=
  String.mk (pyStripBy isPyWS s.toList)

/-- Python `value.strip("\"'")`. -/
def stripQuotes (s : String) : String :=
  String.mk (pyStripBy isQuote s.toList)

/-- Python `line.split("=", 1)` when `"=" in line`: the characters before the
first `=` and the characters after it. -/
def splitFirstEq : List Char → List Char × List Char
  | [] => ([], [])
  | c :: rest =>
    if c = '=' then ([], rest)
    else
      let p := splitFirstEq rest
      (c :: p.1, p.2)

/-- One iteration of the loop body of `Config._read_file` on an already-read
line: strip the line; if it contains `=` and does not start with `#`, split
at the first `=`, strip the key, strip the value and its quote characters,
and store the binding; otherwise leave the accumulated dict unchanged. -/
def readFileLine (fv : List (String × String)) (line : String) : List (String × String) :=
  let l := (pyStrip line).toList
  if l.contains '=' ∧ ¬ (l.headD ' ' = '#') then
    let p := splitFirstEq l
    dictInsert fv (String.mk (pyStripBy isPyWS p.1))
      (stripQuotes (String.mk (pyStripBy isPyWS p.2)))
  else fv

/-- `Config._read_file`, applied to the list of lines returned by
`input_file.readlines()` (each line here given without its trailing newline,
which `strip()` would remove anyway): fold the per-line step over an
initially empty dict. -/
def readFileLines (lines : List String) : List (String × String) :=
  lines.foldl readFileLine []

/-- The state of an `Environ` object: the wrapped mutable mapping
`_environ` and the set `_has_been_read`. -/
structure Environ where
  environ : List (String × String)
  has_been_read : List String
deriving DecidableEq

/-- `Environ.__getitem__`: add the key to `_has_been_read` FIRST, then look
it up in the wrapped mapping (raising `KeyError` when absent).  The successor
state carries the enlarged read set in either case. -/
def Environ.getItem (e : Environ) (key : String) : Except Exc String × Environ :=
  let e' : Environ := { e with has_been_read := readAdd e.has_been_read key }
  (match dictGet? e.environ key with
   | some v => Except.ok v
   | none => Except.error (Exc.keyError key), e')

/-- `Environ.__setitem__`: raise `EnvironError` (state untouched) when the key
is in `_has_been_read`, else store the value in the wrapped mapping. -/
def Environ.setItem (e : Environ) (key value : String) : Except Exc Unit × Environ :=
  if key ∈ e.has_been_read then (Except.error (Exc.environSet key), e)
  else (Except.ok (), { e with environ := dictInsert e.environ key value })

/-- `Environ.__delitem__`: raise `EnvironError` (state untouched) when the key
is in `_has_been_read`, else delete it from the wrapped mapping (raising
`KeyError` when absent). -/
def Environ.delItem (e : Environ) (key : String) : Except Exc Unit × Environ :=
  if key ∈ e.has_been_read then (Except.error (Exc.environDel key), e)
  else
    match dictDel? e.environ key with
    | some m => (Except.ok (), { e with environ := m })
    | none => (Except.error (Exc.keyError key), e)

/-- `key in environ`.  `Environ` subclasses `typing.MutableMapping` and does
NOT override `__contains__`; the inherited `collections.abc.Mapping.
__contains__` is `try: self[key] except KeyError: return False; return
True`, i.e. it goes through `Environ.__getitem__` and hence adds the key to
`_has_been_read`. -/
def Environ.contains (e : Environ) (key : String) : Bool × Environ :=
  let p := Environ.getItem e key
  (match p.1 with
   | Except.ok _ => true
   | Except.error _ => false, p.2)

/-- One operation on an `Environ` object, for stating properties over
arbitrary later sequences of calls. -/
inductive EnvOp where
  | get (k : String)
  | set (k v : String)
  | del (k : String)
  | has (k : String)

/-- The successor state of an `Environ` after one operation (results are
discarded; failed operations leave the state unchanged by construction). -/
def Environ.applyOp (e : Environ) : EnvOp → Environ
  | EnvOp.get k => (Environ.getItem e k).2
  | EnvOp.set k v => (Environ.setItem e k v).2
  | EnvOp.del k => (Environ.delItem e k).2
  | EnvOp.has k => (Environ.contains e k).2

/-- The successor state after a sequence of operations. -/
def Environ.applyOps (e : Environ) (ops : List EnvOp) : Environ :=
  ops.foldl Environ.applyOp e

/-- Decimal digit-string parser used by the sample `int` cast below. -/
def parseDigitsAux : List Char → Nat → Option Nat
  | [], acc => some acc
  | c :: rest, acc =>
    if '0' ≤ c ∧ c ≤ '9' then parseDigitsAux rest (acc * 10 + (c.toNat - 48))
    else none

/-- Decimal digit-string parser (empty string fails). -/
def parseDigits : List Char → Option Nat
  | [] => none
  | l => parseDigitsAux l 0

/-- A sample user-supplied cast callable modelling the Python `int` builtin
on digit strings, ints and bools: it raises `ValueError` on a non-numeric
string and `TypeError` on `None`.  Used as a concrete conversion function in
witnesses. -/
def intCast : Value → Except Exc Value
  | Value.vstr s =>
    match parseDigits s.toList with
    | some n => Except.ok (Value.vint (Int.ofNat n))
    | none => Except.error Exc.valueError
  | Value.vint n => Except.ok (Value.vint n)
  | Value.vbool b => Except.ok (Value.vint (if b then 1 else 0))
  | Value.vnone => Except.error Exc.typeError

/-! Helper lemmas about the dict and read-set models and about the successor
states of the `Environ` operations. -/

theorem dictGet_insert_self (d : List (String × String)) (k v : String) :
    dictGet? (dictInsert d k v) k = some v := by
  induction d with
  | nil => simp [dictInsert, dictGet?]
  | cons p rest ih =>
    by_cases h : p.1 = k
    · simp [dictInsert, h, dictGet?]
    · simp [dictInsert, h, dictGet?, ih]

theorem readAdd_mem_self (r : List String) (k : String) : k ∈ readAdd r k := by
  unfold readAdd
  by_cases h : k ∈ r
  · simp [h]
  · simp [h]

theorem readAdd_mem_mono (r : List String) (k k' : String) (h : k ∈ r) :
    k ∈ readAdd r k' := by
  unfold readAdd
  split
  · exact h
  · exact List.mem_append_left _ h

theorem setItem_read (e : Environ) (k v : String) :
    (Environ.setItem e k v).2.has_been_read = e.has_been_read := by
  unfold Environ.setItem
  split <;> rfl

theorem delItem_read (e : Environ) (k : String) :
    (Environ.delItem e k).2.has_been_read = e.has_been_read := by
  unfold Environ.delItem
  split
  · rfl
  · split <;> rfl

theorem applyOp_read_mono (e : Environ) (op : EnvOp) (k : String)
    (h : k ∈ e.has_been_read) : k ∈ (Environ.applyOp e op).has_been_read := by
  cases op with
  | get k' => exact readAdd_mem_mono _ _ _ h
  | set k' v' => rw [Environ.applyOp, setItem_read]; exact h
  | del k' => rw [Environ.applyOp, delItem_read]; exact h
  | has k' => exact readAdd_mem_mono _ _ _ h

theorem applyOps_read_mono (ops : List EnvOp) :
    ∀ e : Environ, ∀ k : String, k ∈ e.has_been_read →
      k ∈ (Environ.applyOps e ops).has_been_read := by
  induction ops with
  | nil => exact fun e k h => h
  | cons op rest ih => exact fun e k h => ih _ _ (applyOp_read_mono e op k h)

theorem get_eq_rawValue (c : Config) (k : String) (cast : Cast) (d : Option Value) :
    Config.get c k cast d =
      match Config.rawValue c k d with
      | some v => performCast (effectiveKey c k) v cast
      | none => Except.error (Exc.configMissing (effectiveKey c k)) := by
  cases h1 : dictGet? c.environ (effectiveKey c k) with
  | some v => simp [Config.get, Config.rawValue, h1]
  | none =>
    cases h2 : dictGet? c.file_values (effectiveKey c k) with
    | some v => simp [Config.get, Config.rawValue, h1, h2]
    | none => cases d <;> simp [Config.get, Config.rawValue, h1, h2]

/-! The claims. -/

/-- C1: for every key `k`, cast `c` and default `d`, `Config.get` prepends
the configured env\_prefix to `k` to form the effective key and resolves
with precedence environment over file values over default: if the effective
key is in the environment-like mapping its value is taken from there (even
when the file also defines it); otherwise, if it is in the parsed file
values, that value is taken; otherwise a supplied default is used.  The
chosen value is then cast (by `_perform_cast`) and returned. -/
theorem config_get_precedence (c : Config) (k : String) (cast : Cast) (d : Option Value) :
    (∀ v, dictGet? c.environ (effectiveKey c k) = some v →
      Config.get c k cast d = performCast (effectiveKey c k) (Value.vstr v) cast) ∧
    (dictGet? c.environ (effectiveKey c k) = none →
      (∀ v, dictGet? c.file_values (effectiveKey c k) = some v →
        Config.get c k cast d = performCast (effectiveKey c k) (Value.vstr v) cast) ∧
      (dictGet? c.file_values (effectiveKey c k) = none →
        ∀ dv, d = some dv →
          Config.get c k cast d = performCast (effectiveKey c k) dv cast)) := by
  refine ⟨fun v h1 => ?_, fun h1 => ⟨fun v h2 => ?_, fun h2 dv hd => ?_⟩⟩
  · simp [Config.get, h1]
  · simp [Config.get, h1, h2]
  · simp [Config.get, h1, h2, hd]

/-- Concrete instance of C1: the environment value wins over a file value
for the same effective key, the file value is used when the environment
lacks the key, and the default is used when both lack it. -/
def cfg1 : Config :=
  { environ := [("P_A", "ae")], env_prefix := "P_",
    file_values := [("P_A", "af"), ("P_B", "bf")] }

/-- Witness for C1 at `cfg1`. -/
theorem config_get_precedence_witness :
    Config.get cfg1 "A" Cast.noCast (some (Value.vstr "dd")) = Except.ok (Value.vstr "ae") ∧
    Config.get cfg1 "B" Cast.noCast (some (Value.vstr "dd")) = Except.ok (Value.vstr "bf") ∧
    Config.get cfg1 "C" Cast.noCast (some (Value.vstr "dd")) = Except.ok (Value.vstr "dd") := by
  refine ⟨?_, ?_, ?_⟩
  · exact ((config_get_precedence cfg1 "A" Cast.noCast (some (Value.vstr "dd"))).1
      "ae" rfl).trans rfl
  · exact (((config_get_precedence cfg1 "B" Cast.noCast (some (Value.vstr "dd"))).2
      rfl).1 "bf" rfl).trans rfl
  · exact (((config_get_precedence cfg1 "C" Cast.noCast (some (Value.vstr "dd"))).2
      rfl).2 rfl (Value.vstr "dd") rfl).trans rfl

/-- C2: the boolean cast on a string value first lowercases it and then maps
`"true"` and `"1"` to true and `"false"` and `"0"` to false (so `"TRUE"` and
`"True"` yield true and `"FALSE"` yields false); any other string fails with
the validation error carrying the key and the (lowercased) offending
string. -/
theorem bool_cast_table (key s : String) :
    performCast key (Value.vstr s) Cast.boolCast =
      (if pyLower s = "true" ∨ pyLower s = "1" then Except.ok (Value.vbool true)
       else if pyLower s = "false" ∨ pyLower s = "0" then Except.ok (Value.vbool false)
       else Except.error (Exc.notValidBool key (pyLower s))) ∧
    performCast key (Value.vstr "TRUE") Cast.boolCast = Except.ok (Value.vbool true) ∧
    performCast key (Value.vstr "True") Cast.boolCast = Except.ok (Value.vbool true) ∧
    performCast key (Value.vstr "1") Cast.boolCast = Except.ok (Value.vbool true) ∧
    performCast key (Value.vstr "FALSE") Cast.boolCast = Except.ok (Value.vbool false) ∧
    performCast key (Value.vstr "0") Cast.boolCast = Except.ok (Value.vbool false) ∧
    performCast key (Value.vstr "yes") Cast.boolCast =
      Except.error (Exc.notValidBool key "yes") :=
  ⟨rfl, rfl, rfl, rfl, rfl, rfl, rfl⟩

/-- C3: once a key `k` has been read via `Environ.__getitem__`, every
subsequent `set(k, v)` and every subsequent `delete(k)` — after any further
sequence of operations — raises the guard `EnvironError`, and the failed
operation leaves the whole state (the underlying mapping, with the stored
value for `k` and all other entries, and the read set) exactly as it was. -/
theorem guard_after_read (e : Environ) (k v : String) (ops : List EnvOp) :
    Environ.setItem (Environ.applyOps (Environ.getItem e k).2 ops) k v =
      (Except.error (Exc.environSet k), Environ.applyOps (Environ.getItem e k).2 ops) ∧
    Environ.delItem (Environ.applyOps (Environ.getItem e k).2 ops) k =
      (Except.error (Exc.environDel k), Environ.applyOps (Environ.getItem e k).2 ops) := by
  have hmem : k ∈ (Environ.applyOps (Environ.getItem e k).2 ops).has_been_read :=
    applyOps_read_mono ops _ k (readAdd_mem_self e.has_been_read k)
  exact ⟨by simp [Environ.setItem, hmem], by simp [Environ.delItem, hmem]⟩

/-- A fresh `Environ` wrapping one binding, nothing read yet. -/
def envC4 : Environ := { environ := [("X", "1")], has_been_read := [] }

/-- C4 counterexample: `__contains__` is inherited from
`collections.abc.Mapping`, which implements it via `self[key]`, so the
membership test DOES mark the key as read: on a fresh `Environ` the read set
changes from empty to `["X"]`, and the subsequent `set("X", "2")` raises the
guard error instead of succeeding. -/
theorem contains_marks_read_cex :
    envC4.has_been_read = [] ∧
    (Environ.contains envC4 "X").2.has_been_read = ["X"] ∧
    Environ.setItem (Environ.contains envC4 "X").2 "X" "2" =
      (Except.error (Exc.environSet "X"), (Environ.contains envC4 "X").2) := by
  refine ⟨rfl, rfl, ?_⟩
  have hmem : "X" ∈ (Environ.contains envC4 "X").2.has_been_read := by decide
  simp [Environ.setItem, hmem]

/-- C4 amended: the membership test `contains(k)` returns whether `k` is in
the underlying mapping, but — being inherited from the generic mapping
mixin, which implements membership via the item lookup — it adds `k` (and
only `k`) to the set of keys marked as read; a `contains(k)` check followed
by `set(k, v)` therefore raises a guard violation even when `k` was not
otherwise read. -/
theorem contains_spec (e : Environ) (k v : String) :
    (Environ.contains e k).1 = (dictGet? e.environ k).isSome ∧
    (Environ.contains e k).2 =
      { e with has_been_read := readAdd e.has_been_read k } ∧
    Environ.setItem (Environ.contains e k).2 k v =
      (Except.error (Exc.environSet k), (Environ.contains e k).2) := by
  refine ⟨?_, rfl, ?_⟩
  · unfold Environ.contains Environ.getItem
    cases dictGet? e.environ k <;> rfl
  · have hmem : k ∈ (Environ.contains e k).2.has_been_read :=
      readAdd_mem_self e.has_been_read k
    simp [Environ.setItem, hmem]

/-- C5: `Environ.__getitem__` adds the key to `_has_been_read` BEFORE the
lookup: for a key absent from the underlying mapping, `get(k)` raises the
missing-key error and nevertheless marks `k` as read, so a subsequent
`set(k, v)` or `delete(k)` raises the guard violation even though `k` was
never present. -/
theorem get_marks_read_on_missing (e : Environ) (k v : String)
    (h : dictGet? e.environ k = none) :
    (Environ.getItem e k).1 = Except.error (Exc.keyError k) ∧
    k ∈ (Environ.getItem e k).2.has_been_read ∧
    Environ.setItem (Environ.getItem e k).2 k v =
      (Except.error (Exc.environSet k), (Environ.getItem e k).2) ∧
    Environ.delItem (Environ.getItem e k).2 k =
      (Except.error (Exc.environDel k), (Environ.getItem e k).2) := by
  have hmem : k ∈ (Environ.getItem e k).2.has_been_read :=
    readAdd_mem_self e.has_been_read k
  refine ⟨?_, hmem, ?_, ?_⟩
  · show (match dictGet? e.environ k with
      | some v => Except.ok v
      | none => Except.error (Exc.keyError k)) = Except.error (Exc.keyError k)
    rw [h]
  · simp [Environ.setItem, hmem]
  · simp [Environ.delItem, hmem]

/-- A fresh `Environ` whose mapping does not contain `"K"`. -/
def env5 : Environ := { environ := [("A", "x")], has_been_read := [] }

/-- Witness for C5 at `env5` and the absent key `"K"`. -/
theorem get_marks_read_on_missing_witness :
    (Environ.getItem env5 "K").1 = Except.error (Exc.keyError "K") ∧
    "K" ∈ (Environ.getItem env5 "K").2.has_been_read ∧
    Environ.setItem (Environ.getItem env5 "K").2 "K" "v" =
      (Except.error (Exc.environSet "K"), (Environ.getItem env5 "K").2) ∧
    Environ.delItem (Environ.getItem env5 "K").2 "K" =
      (Except.error (Exc.environDel "K"), (Environ.getItem env5 "K").2) :=
  get_marks_read_on_missing env5 "K" "v" rfl

/-- C6: for a key absent from both the environment-like mapping and the file
values, a supplied default of `None` makes `Config.get` return `None`
without raising (whatever the cast, since a `None` value is never cast),
while supplying no default at all makes it raise the lookup failure naming
the effective (prefixed) key. -/
theorem default_none_vs_missing (c : Config) (k : String) (cast : Cast)
    (h1 : dictGet? c.environ (effectiveKey c k) = none)
    (h2 : dictGet? c.file_values (effectiveKey c k) = none) :
    Config.get c k cast (some Value.vnone) = Except.ok Value.vnone ∧
    Config.get c k cast none = Except.error (Exc.configMissing (effectiveKey c k)) := by
  constructor
  · cases cast <;> simp [Config.get, h1, h2, performCast]
  · simp [Config.get, h1, h2]

/-- A `Config` with a nonempty env\_prefix whose sources define nothing for
the effective key `"P_K"`. -/
def cfg6 : Config :=
  { environ := [("A", "x")], env_prefix := "P_", file_values := [("B", "y")] }

/-- Witness for C6 at `cfg6` with the boolean cast. -/
theorem default_none_vs_missing_witness :
    Config.get cfg6 "K" Cast.boolCast (some Value.vnone) = Except.ok Value.vnone ∧
    Config.get cfg6 "K" Cast.boolCast none = Except.error (Exc.configMissing "P_K") :=
  default_none_vs_missing cfg6 "K" Cast.boolCast rfl rfl

/-- C7: whatever source the chosen (non-`None`) value came from, a custom
cast function is applied to it by `Config.get`; when the function raises a
`TypeError` or a `ValueError`, `get` fails with the validation error that
carries the effective key, the offending value and the cast's name, and
when it returns a result, `get` returns that result. -/
theorem custom_cast_applied (c : Config) (k name : String)
    (f : Value → Except Exc Value) (d : Option Value) (v : Value)
    (hv : Config.rawValue c k d = some v) (hnn : v ≠ Value.vnone) :
    (∀ r, f v = Except.ok r →
      Config.get c k (Cast.custom name f) d = Except.ok r) ∧
    (f v = Except.error Exc.typeError →
      Config.get c k (Cast.custom name f) d =
        Except.error (Exc.notValid (effectiveKey c k) v name)) ∧
    (f v = Except.error Exc.valueError →
      Config.get c k (Cast.custom name f) d =
        Except.error (Exc.notValid (effectiveKey c k) v name)) := by
  have hg : Config.get c k (Cast.custom name f) d =
      performCast (effectiveKey c k) v (Cast.custom name f) := by
    rw [get_eq_rawValue, hv]
  have hpc : performCast (effectiveKey c k) v (Cast.custom name f) =
      match f v with
      | Except.ok r => Except.ok r
      | Except.error Exc.typeError =>
        Except.error (Exc.notValid (effectiveKey c k) v name)
      | Except.error Exc.valueError =>
        Except.error (Exc.notValid (effectiveKey c k) v name)
      | Except.error e => Except.error e := by
    cases v with
    | vnone => exact absurd rfl hnn
    | vstr s => rfl
    | vbool b => rfl
    | vint n => rfl
  refine ⟨fun r hr => ?_, fun hr => ?_, fun hr => ?_⟩ <;> rw [hg, hpc, hr]

/-- A `Config` matching the spec's example: environment variable
`APP_PORT=8080`, env\_prefix `APP_`. -/
def cfg7 : Config :=
  { environ := [("APP_PORT", "8080")], env_prefix := "APP_", file_values := [] }

/-- Like `cfg7` but with a value the `int` cast rejects. -/
def cfg7b : Config :=
  { environ := [("APP_PORT", "abc")], env_prefix := "APP_", file_values := [] }

/-- Witness for C7: casting `"8080"` with the sample `int` cast returns the
integer 8080, and casting `"abc"` fails with the validation error carrying
the effective key, the value and the cast name. -/
theorem custom_cast_applied_witness :
    Config.get cfg7 "PORT" (Cast.custom "int" intCast) none =
      Except.ok (Value.vint 8080) ∧
    Config.get cfg7b "PORT" (Cast.custom "int" intCast) none =
      Except.error (Exc.notValid "APP_PORT" (Value.vstr "abc") "int") := by
  constructor
  · exact (custom_cast_applied cfg7 "PORT" "int" intCast none (Value.vstr "8080")
      rfl (by decide)).1 (Value.vint 8080) rfl
  · exact (custom_cast_applied cfg7b "PORT" "int" intCast none (Value.vstr "abc")
      rfl (by decide)).2.2 rfl

/-- C8: parsing the lines `A=1`, `# comment`, `B = "hello world"`, a blank
line and `C=foo=bar` yields exactly the dict
`{"A": "1", "B": "hello world", "C": "foo=bar"}` — stripped lines without
`=` or starting with `#` are ignored, the remaining lines are split at the
first `=` only, key and value are trimmed (with quote characters stripped
from the value) — and a key appearing on several lines takes the value of
its last line. -/
theorem read_file_roundtrip :
    readFileLines ["A=1", "# comment", "B = \"hello world\"", "", "C=foo=bar"] =
      [("A", "1"), ("B", "hello world"), ("C", "foo=bar")] ∧
    readFileLines ["A=1", "B=2", "A=3"] = [("A", "3"), ("B", "2")] :=
  ⟨rfl, rfl⟩

/-- C9 counterexample: the parser applies `value.strip().strip("\"'")`,
which removes ALL leading and trailing quote characters, not one matching
layer: the line `C=''v''` parses to the value `v`, not to `'v'` with the
inner quotes preserved. -/
theorem strip_quotes_one_layer_cex :
    readFileLines ["C=''v''"] = [("C", "v")] ∧
    ¬ readFileLines ["C=''v''"] =
        [("C", String.mk [Char.ofNat 39, 'v', Char.ofNat 39])] := by
  exact ⟨rfl, by decide⟩

/-- C9 amended: every maximal run of leading and trailing quote characters
(double or single, matching or not) is stripped from the value, and interior
quote characters are preserved: `''v''` parses to `v`, a value with
mismatched surrounding quotes such as `"v'` loses both, and `'a'b'` parses
to `a'b`. -/
theorem strip_quotes_all_layers :
    readFileLines ["C=''v''"] = [("C", "v")] ∧
    readFileLines ["D=\"v'"] = [("D", "v")] ∧
    readFileLines ["E='a'b'"] = [("E", "a'b")] :=
  ⟨rfl, rfl, rfl⟩

/-- C10: for every key `k` not yet marked as read, `set(k, v)` succeeds and
a following `get(k)` returns exactly `v`. -/
theorem set_then_get (e : Environ) (k v : String) (h : k ∉ e.has_been_read) :
    (Environ.setItem e k v).1 = Except.ok () ∧
    (Environ.getItem (Environ.setItem e k v).2 k).1 = Except.ok v := by
  constructor
  · simp [Environ.setItem, h]
  · show (match dictGet? (Environ.setItem e k v).2.environ k with
      | some w => Except.ok w
      | none => Except.error (Exc.keyError k)) = Except.ok v
    have h2 : (Environ.setItem e k v).2.environ = dictInsert e.environ k v := by
      simp [Environ.setItem, h]
    rw [h2, dictGet_insert_self]

/-- An `Environ` where `"B"` was read but `"K"` was not. -/
def env10 : Environ := { environ := [("A", "0")], has_been_read := ["B"] }

/-- Witness for C10 at `env10` and the unread key `"K"`. -/
theorem set_then_get_witness :
    (Environ.setItem env10 "K" "val").1 = Except.ok () ∧
    (Environ.getItem (Environ.setItem env10 "K" "val").2 "K").1 = Except.ok "val" :=
  set_then_get env10 "K" "val" (by decide)

end Starlette
